import Mathlib

/-!
Shallow embedding of the LawSearch AI RAG service (FastAPI backend), covering:
the thinking-speed policy (`create_llm_for_speed`, `get_retrieval_k_for_speed`),
the routing reply parser (`route_subcommittees`), the LangGraph workflow built
by `RAGService.build_graph` and driven by `RAGService.process_query`, the
re-ingestion cache behaviour of `RAGService.ingest_data`, the request model
`QueryRequest` with its `divisions_filter` validator, and the document
segmenter `process_file` of `src/ingest.py`.

Python strings are modelled as Lean `String`/`List Char` (code-point based, as
Python slicing and `len` are). Machine-level details (HTTP, ChromaDB storage,
actual LLM calls) are abstracted as oracles supplying the free-text model
replies and per-division summarization outcomes; everything the cited Python
code itself computes is translated directly.
-/

namespace LawSearch

/-! ### Python-style text primitives (code points) -/

/-- Python `str.isspace` characters that matter here (ASCII whitespace). -/
def isPyWs (c : Char) : Bool :=
  c == ' ' || c == '\t' || c == '\n' || c == '\r' || c == '\x0b' || c == '\x0c'

/-- Python `str.strip()` with no arguments. -/
def pyStrip (cs : List Char) : List Char :=
  ((cs.dropWhile isPyWs).reverse.dropWhile isPyWs).reverse

/-- Python `str.split("\n")`: keeps empty pieces, `""` yields `[""]`. -/
def splitLinesChar : List Char → List (List Char)
  | [] => [[]]
  | c :: cs =>
    if c == '\n' then [] :: splitLinesChar cs
    else
      match splitLinesChar cs with
      | [] => [[c]]
      | l :: ls => (c :: l) :: ls

/-- Python `"\n".join(...)` over char lists. -/
def joinNl : List (List Char) → List Char
  | [] => []
  | [l] => l
  | l :: l2 :: ls => l ++ '\n' :: joinNl (l2 :: ls)

/-- Python `sep.join(...)` over strings. -/
def pyJoin (sep : String) : List String → String
  | [] => ""
  | [x] => x
  | x :: y :: xs => x ++ sep ++ pyJoin sep (y :: xs)

/-- Splits into maximal whitespace-free words, dropping empties:
Python `str.split()` with no arguments. `acc` holds the current word reversed. -/
def pyWordsGo : List Char → List Char → List (List Char)
  | acc, [] => if acc.isEmpty then [] else [acc.reverse]
  | acc, c :: cs =>
    if isPyWs c then
      if acc.isEmpty then pyWordsGo [] cs else acc.reverse :: pyWordsGo [] cs
    else pyWordsGo (c :: acc) cs

/-- Python `' '.join(s.split())`: collapse all whitespace runs to single spaces. -/
def normWS (s : String) : String :=
  pyJoin " " ((pyWordsGo [] s.toList).map List.asString)

/-! ### Python literal values and `ast.literal_eval`

`route_subcommittees` parses the routing model's reply with
`ast.literal_eval`. We embed the fragment of Python literal syntax the
routing path can meet: single/double-quoted strings (with the common
backslash escapes), integers, `True`/`False`/`None`, and (nested) list
displays with optional trailing comma. Any other input — including the
spec's canonical malformed reply `"not a list"` — fails to parse, which is
exactly the `(ValueError, SyntaxError)` branch of the Python code. -/

inductive PyVal where
  | pstr (s : String)
  | pint (n : Int)
  | pbool (b : Bool)
  | pnone
  | plist (elems : List PyVal)

/-- Leading whitespace removal for the literal tokenizer. -/
def skipWs (cs : List Char) : List Char :=
  cs.dropWhile isPyWs

/-- Parses the body of a quoted string after the opening quote `q`,
returning the decoded chars and the rest of the input after the closing
quote. Fuel-indexed; callers pass `length + 1` fuel, which always suffices. -/
def parseStringLit (q : Char) : Nat → List Char → Option (List Char × List Char)
  | 0, _ => none
  | _ + 1, [] => none
  | fuel + 1, c :: cs =>
    if c == q then some ([], cs)
    else if c == '\\' then
      match cs with
      | [] => none
      | e :: cs2 =>
        let esc : Option Char :=
          if e == 'n' then some '\n'
          else if e == 't' then some '\t'
          else if e == 'r' then some '\r'
          else if e == '\\' then some '\\'
          else if e == '\'' then some '\''
          else if e == '"' then some '"'
          else none
        match esc with
        | some ch =>
          match parseStringLit q fuel cs2 with
          | some (s, r) => some (ch :: s, r)
          | none => none
        | none => none
    else
      match parseStringLit q fuel cs with
      | some (s, r) => some (c :: s, r)
      | none => none

/-- Digit run to a natural number. -/
def digitsToNat (ds : List Char) : Nat :=
  ds.foldl (fun n c => n * 10 + (c.toNat - '0'.toNat)) 0

/-- Integer literals with an optional sign. -/
def parseIntLit : List Char → Option (PyVal × List Char)
  | '-' :: rest =>
    let ds := rest.takeWhile Char.isDigit
    if ds.isEmpty then none
    else some (.pint (-(digitsToNat ds : Int)), rest.drop ds.length)
  | '+' :: rest =>
    let ds := rest.takeWhile Char.isDigit
    if ds.isEmpty then none
    else some (.pint (digitsToNat ds : Int), rest.drop ds.length)
  | cs =>
    let ds := cs.takeWhile Char.isDigit
    if ds.isEmpty then none
    else some (.pint (digitsToNat ds : Int), cs.drop ds.length)

mutual

/-- One Python literal, returning the value and the remaining input. -/
def parsePyLit : Nat → List Char → Option (PyVal × List Char)
  | 0, _ => none
  | fuel + 1, cs =>
    match skipWs cs with
    | [] => none
    | c :: rest =>
      if c == '"' || c == '\'' then
        match parseStringLit c (rest.length + 1) rest with
        | some (s, r) => some (.pstr s.asString, r)
        | none => none
      else if c == '[' then
        match parsePyListRest fuel rest with
        | some (vs, r) => some (.plist vs, r)
        | none => none
      else if c == 'T' || c == 'F' || c == 'N' then
        if "True".toList.isPrefixOf (c :: rest) then
          some (.pbool true, (c :: rest).drop 4)
        else if "False".toList.isPrefixOf (c :: rest) then
          some (.pbool false, (c :: rest).drop 5)
        else if "None".toList.isPrefixOf (c :: rest) then
          some (.pnone, (c :: rest).drop 4)
        else none
      else parseIntLit (c :: rest)

/-- The inside of a list display, after the opening bracket. Accepts a
trailing comma, as Python does. -/
def parsePyListRest : Nat → List Char → Option (List PyVal × List Char)
  | 0, _ => none
  | fuel + 1, cs =>
    match skipWs cs with
    | ']' :: rest => some ([], rest)
    | cs2 =>
      match parsePyLit fuel cs2 with
      | none => none
      | some (v, r) =>
        match skipWs r with
        | ',' :: r2 =>
          match parsePyListRest fuel r2 with
          | some (vs, r3) => some (v :: vs, r3)
          | none => none
        | ']' :: r2 => some ([v], r2)
        | _ => none

end

/-- `ast.literal_eval`: a whole-input literal; trailing garbage is a failure. -/
def pyLiteralEval (cs : List Char) : Option PyVal :=
  match parsePyLit (cs.length + 1) cs with
  | some (v, rest) => if (skipWs rest).isEmpty then some v else none
  | none => none

/-! ### Routing reply parsing — `RAGService.route_subcommittees`

The service strips the reply (`response.content.strip()`), removes a fenced
markdown block if the content starts with triple backticks (drop the first
and last line, keep the non-blank middle lines), then applies
`ast.literal_eval`; a `ValueError`/`SyntaxError` is caught and replaced by
the empty Python list. The parsed value is returned unchanged — no
vocabulary filtering happens here. -/

/-- The markdown-fence removal of `route_subcommittees` (lines 251-255):
`lines[1:-1]` filtered to the lines with non-blank content, re-joined. -/
def stripFencedChars (content : List Char) : List Char :=
  if "```".toList.isPrefixOf content then
    let lines := splitLinesChar content
    let codeLines := ((lines.drop 1).dropLast).filter (fun l => !(pyStrip l).isEmpty)
    if !codeLines.isEmpty then joinNl codeLines else content
  else content

/-- The value bound to `selected_subcommittees` by `route_subcommittees`,
as a function of the routing model's raw reply text: strip, un-fence,
`literal_eval`, and fall back to the empty list on a parse error. -/
def routeParsed (reply : String) : PyVal :=
  match pyLiteralEval (stripFencedChars (pyStrip reply.toList)) with
  | some v => v
  | none => PyVal.plist []

/-- Views a parsed literal as a Python list of strings — the shape every
well-behaved routing reply has, and the only shape the conditional fan-out
edge of the graph handles uniformly. -/
def strsOf : List PyVal → Option (List String)
  | [] => some []
  | .pstr s :: vs =>
    match strsOf vs with
    | some ss => some (s :: ss)
    | none => none
  | _ :: _ => none

/-- The routing result as a list of strings, when it is one. -/
def asStringList : PyVal → Option (List String)
  | .plist vs => strsOf vs
  | _ => none

/-! ### Speed policy — `create_llm_for_speed` and `get_retrieval_k_for_speed` -/

/-- The constructor arguments the service passes to `ChatOpenAI`. -/
structure LLMConfig where
  model : String
  temperature : Option Nat
  reasoningEffort : Option String
  verbosity : Option String
deriving DecidableEq, Repr

/-- `create_llm_for_speed` (rag_service.py lines 52-98): routing always gets
gpt-4o-mini; otherwise the (speed, task) table, with gpt-4o as the fallback. -/
def create_llm_for_speed (speed task : String) : LLMConfig :=
  if task = "routing" then ⟨"gpt-4o-mini", some 0, none, none⟩
  else if speed = "quick" then ⟨"gpt-4o-mini", some 0, none, none⟩
  else if speed = "normal" then
    if task = "generation" then ⟨"gpt-4o", some 0, none, none⟩
    else if task = "summarization" then ⟨"o4-mini", none, none, none⟩
    else ⟨"gpt-4o", some 0, none, none⟩
  else if speed = "long" then
    if task = "generation" then ⟨"gpt-5", none, some "medium", some "high"⟩
    else if task = "summarization" then ⟨"gpt-5", none, some "high", some "medium"⟩
    else ⟨"gpt-4o", some 0, none, none⟩
  else ⟨"gpt-4o", some 0, none, none⟩

/-- `get_retrieval_k_for_speed` (lines 101-110): `{"quick": 6, "normal": 9,
"long": 15}.get(speed, 9)`. -/
def get_retrieval_k_for_speed (speed : String) : Nat :=
  if speed = "quick" then 6
  else if speed = "normal" then 9
  else if speed = "long" then 15
  else 9

/-! ### The closed division vocabulary — `Settings.subcommittee_stores` -/

/-- `subcommittee_stores` from `app/core/config.py`: division label to
on-disk vector store directory. Its key set is the closed vocabulary; the
graph creates one `query_<label>` node per key. -/
def subcommittee_stores : List (String × String) :=
  [("MILITARY CONSTRUCTION, VETERANS AFFAIRS, AND RELATED AGENCIES",
    "Consolidated_Appropriations_Act_2024_Public_Law_html_Division_A_MILITARY_CONSTRUCTION_VETERANS_AFFAIRS_AND_RELATED_AGENCIES"),
   ("AGRICULTURE, RURAL DEVELOPMENT, FOOD AND DRUG ADMINISTRATION, AND RELATED AGENCIES",
    "Consolidated_Appropriations_Act_2024_Public_Law_html_Division_B_AGRICULTURE_RURAL_DEVELOPMENT_FOOD_AND_DRUG_ADMINISTRATION_AND_RELATED_AGENCIES"),
   ("COMMERCE, JUSTICE, SCIENCE, AND RELATED AGENCIES",
    "Consolidated_Appropriations_Act_2024_Public_Law_html_Division_C_COMMERCE_JUSTICE_SCIENCE_AND_RELATED_AGENCIES"),
   ("ENERGY AND WATER DEVELOPMENT AND RELATED AGENCIES",
    "Consolidated_Appropriations_Act_2024_Public_Law_html_Division_D_ENERGY_AND_WATER_DEVELOPMENT_AND_RELATED_AGENCIES"),
   ("DEPARTMENT OF THE INTERIOR, ENVIRONMENT, AND RELATED AGENCIES",
    "Consolidated_Appropriations_Act_2024_Public_Law_html_Division_E_DEPARTMENT_OF_THE_INTERIOR_ENVIRONMENT_AND_RELATED_AGENCIES"),
   ("TRANSPORTATION, HOUSING AND URBAN DEVELOPMENT, AND RELATED AGENCIES",
    "Consolidated_Appropriations_Act_2024_Public_Law_html_Division_F_TRANSPORTATION_HOUSING_AND_URBAN_DEVELOPMENT_AND_RELATED_AGENCIES"),
   ("OTHER MATTERS",
    "Consolidated_Appropriations_Act_2024_Public_Law_html_Division_G_OTHER_MATTERS"),
   ("DEPARTMENT OF DEFENSE",
    "Further_Consolidated_Appropriations_Act_2024_Public_Law_html_Division_A_DEPARTMENT_OF_DEFENSE"),
   ("FINANCIAL SERVICES AND GENERAL GOVERNMENT",
    "Further_Consolidated_Appropriations_Act_2024_Public_Law_html_Division_B_FINANCIAL_SERVICES_AND_GENERAL_GOVERNMENT"),
   ("DEPARTMENT OF HOMELAND SECURITY",
    "Further_Consolidated_Appropriations_Act_2024_Public_Law_html_Division_C_DEPARTMENT_OF_HOMELAND_SECURITY"),
   ("DEPARTMENTS OF LABOR, HEALTH AND HUMAN SERVICES, AND EDUCATION, AND RELATED AGENCIES",
    "Further_Consolidated_Appropriations_Act_2024_Public_Law_html_Division_D_DEPARTMENTS_OF_LABOR_HEALTH_AND_HUMAN_SERVICES_AND_EDUCATION_AND_RELATED_AGENCIES"),
   ("LEGISLATIVE BRANCH",
    "Further_Consolidated_Appropriations_Act_2024_Public_Law_html_Division_E_LEGISLATIVE_BRANCH"),
   ("DEPARTMENT OF STATE, FOREIGN OPERATIONS, AND RELATED PROGRAMS",
    "Further_Consolidated_Appropriations_Act_2024_Public_Law_html_Division_F_DEPARTMENT_OF_STATE_FOREIGN_OPERATIONS_AND_RELATED_PROGRAMS"),
   ("OTHER MATTERS (FURTHER)",
    "Further_Consolidated_Appropriations_Act_2024_Public_Law_html_Division_G_OTHER_MATTERS")]

/-- The closed vocabulary: the keys of `subcommittee_stores`, which are the
branch names the conditional fan-out edge knows about. -/
def vocabLabels : List String :=
  subcommittee_stores.map Prod.fst

/-! ### The LangGraph workflow — `build_graph` / `process_query`

We model the compiled graph's operational behaviour on the graph that
`build_graph` wires up (entry `router`; conditional edges to one
`query_<label>` node per vocabulary key; every query node feeding `merge`;
finish point `merge`):

* the router runs once, binding `selected_subcommittees`;
* `route_to_nodes` (the conditional-edge function, lines 354-361) returns
  the selection, or `[]` when it is empty; with zero destinations the engine
  schedules no further tasks and `invoke` returns the accumulated state, so
  `merge` never runs and `final_answer` keeps its initial value `""`;
* a returned destination absent from the path map is a lookup error inside
  the engine: the whole `invoke` raises;
* the summarizer tasks for the selected labels run in one superstep, each
  producing one answer (`make_map_reduce_node`, which contains no exception
  handling): if any task raises, `invoke` raises. The branch's returned list
  only writes the destinations' trigger channels, erasing the list's order
  (and collapsing duplicates): the superstep's tasks are created by
  iterating the graph's node map in registration order — the order of
  `subcommittee_stores` — and the engine applies their writes to the
  `add_messages` channel in that fixed node order, regardless of both the
  order of `selected_subcommittees` and the order in which the tasks
  finished;
* `merge_node` then joins the collected answers with a blank line
  (`"No answers found."` if there are none).

External model calls are an oracle: `routeReply question speed` is the raw
routing-LLM reply, and `summarize question speed label` is the outcome of
that division's map-reduce chain (`.error` models a raised exception). Only
list-shaped routing results are modelled through the fan-out (every claim
concerns these); a non-list literal is treated as an invoke-time error. -/

structure Oracle where
  routeReply : String → String → String
  summarize : String → String → String → Except String String

/-- The state fields of interest after `invoke` returns. -/
structure GraphResult where
  finalAnswer : String
  selectedSubcommittees : List String
  subcommitteeAnswers : List String
deriving DecidableEq, Repr

/-- `route_to_nodes` (rag_service.py lines 354-361). -/
def route_to_nodes (selected : List String) : List String :=
  if selected.isEmpty then [] else selected

/-- `merge_node` (lines 313-332): `"\n\n".join` of the collected answers,
or the fallback message when there are none. -/
def merge_node (answers : List String) : String :=
  if answers.isEmpty then "No answers found." else pyJoin "\n\n" answers

/-- The fan-out tasks a (fully known) selection triggers, in the engine's
task-creation order: the query nodes are visited in registration order — the
order of `subcommittee_stores` — keeping those whose trigger channel the
branch wrote; duplicates in the selection collapse. -/
def fanout_tasks (sel : List String) : List String :=
  vocabLabels.filter (fun l => sel.contains l)

/-- First summarizer exception in task order, if any. -/
def firstErrorMsg (o : Oracle) (question speed : String) : List String → Option String
  | [] => none
  | d :: ds =>
    match o.summarize question speed d with
    | .error e => some e
    | .ok _ => firstErrorMsg o question speed ds

/-- Stable insertion by task index: models the engine applying the
supersteps' channel writes in task-creation (node-registration) order. -/
def insertWrite (w : Nat × String) : List (Nat × String) → List (Nat × String)
  | [] => [w]
  | v :: vs => if w.1 ≤ v.1 then w :: v :: vs else v :: insertWrite w vs

/-- Sort the arrived writes by task index. -/
def sortWrites : List (Nat × String) → List (Nat × String)
  | [] => []
  | w :: ws => insertWrite w (sortWrites ws)

/-- The list of answers the `add_messages` channel ends up with, given the
writes in the (arbitrary) order the tasks completed. -/
def applyWrites (ws : List (Nat × String)) : List String :=
  (sortWrites ws).map Prod.snd

/-- The writes of a run in which every task succeeded, indexed by task
creation order — the position in the registration-ordered `fanout_tasks`
list, never the position in `selected_subcommittees`. -/
def canonicalWrites (o : Oracle) (question speed : String) (tasks : List String) :
    List (Nat × String) :=
  tasks.enum.map (fun p => (p.1, ((o.summarize question speed p.2).toOption).getD ""))

/-- One `invoke` of the compiled graph, parameterized by the order in which
the summarizer writes arrived (`arrival`, indexed by task-creation order);
the engine re-orders them by task index before applying them. -/
def invoke_workflow_writes (question speed : String) (sel : List String)
    (o : Oracle) (arrival : List (Nat × String)) : Except String GraphResult :=
  if (route_to_nodes sel).isEmpty then
    .ok ⟨"", sel, []⟩
  else if (route_to_nodes sel).any (fun d => !(vocabLabels.contains d)) then
    .error "unknown node"
  else
    match firstErrorMsg o question speed (fanout_tasks sel) with
    | some e => .error e
    | none =>
      let answers := applyWrites arrival
      .ok ⟨merge_node answers, sel, answers⟩

/-- One `invoke` of the compiled graph with the canonical write order. -/
def invoke_workflow (question speed : String) (sel : List String) (o : Oracle) :
    Except String GraphResult :=
  invoke_workflow_writes question speed sel o
    (canonicalWrites o question speed (fanout_tasks sel))

/-- The (answer, selected_divisions) pair of a `QueryResponse`. -/
structure QueryResponseM where
  answer : String
  selectedDivisions : List String
deriving DecidableEq, Repr

/-- `process_query` from the point the initial state is built (rag_service.py
lines 401-431): run the workflow on the question and thinking speed; build
the response from `final_answer` and `selected_subcommittees`; re-raise any
workflow exception as `"RAG processing failed: ..."`. -/
def query_response (question speed : String) (o : Oracle) :
    Except String QueryResponseM :=
  match asStringList (routeParsed (o.routeReply question speed)) with
  | some sel =>
    match invoke_workflow question speed sel o with
    | .ok r => .ok ⟨r.finalAnswer, r.selectedSubcommittees⟩
    | .error e => .error ("RAG processing failed: " ++ e)
  | none => .error "RAG processing failed: non-list routing result"

/-! ### The request boundary — `app/models/query.py` -/

/-- `QueryRequest`: exactly the five fields the pydantic model declares
(`question`, `max_results`, `include_sources`, `divisions_filter`,
`debug_chunks`). There is no `thinking_speed` field. -/
structure QueryRequest where
  question : String
  maxResults : Option Int
  includeSources : Option Bool
  divisionsFilter : Option (List String)
  debugChunks : Option Bool
deriving DecidableEq, Repr

/-- The hardcoded allow-list of `QueryRequest.validate_divisions`. -/
def validDivisions : List String :=
  ["MILITARY CONSTRUCTION, VETERANS AFFAIRS, AND RELATED AGENCIES",
   "AGRICULTURE, RURAL DEVELOPMENT, FOOD AND DRUG ADMINISTRATION, AND RELATED AGENCIES",
   "COMMERCE, JUSTICE, SCIENCE, AND RELATED AGENCIES",
   "ENERGY AND WATER DEVELOPMENT AND RELATED AGENCIES",
   "DEPARTMENT OF THE INTERIOR, ENVIRONMENT, AND RELATED AGENCIES",
   "TRANSPORTATION, HOUSING AND URBAN DEVELOPMENT, AND RELATED AGENCIES",
   "OTHER MATTERS",
   "DEPARTMENT OF DEFENSE",
   "FINANCIAL SERVICES AND GENERAL GOVERNMENT",
   "DEPARTMENT OF HOMELAND SECURITY",
   "DEPARTMENTS OF LABOR, HEALTH AND HUMAN SERVICES, AND EDUCATION, AND RELATED AGENCIES",
   "LEGISLATIVE BRANCH",
   "DEPARTMENT OF STATE, FOREIGN OPERATIONS, AND RELATED PROGRAMS",
   "OTHER MATTERS (FURTHER)"]

/-- `validate_divisions` (query.py lines 68-97): `None` passes; otherwise
every entry must be in the allow-list, else a `ValueError` is raised. -/
def validate_divisions (v : Option (List String)) : Except String (Option (List String)) :=
  match v with
  | none => .ok none
  | some ds =>
    let invalid := ds.filter (fun d => !(validDivisions.contains d))
    if invalid.isEmpty then .ok (some ds) else .error "Invalid division names"

/-- The attribute access `request.thinking_speed` performed by
`process_query` (rag_service.py lines 391 and 398). `QueryRequest` declares
no such field and allows no extra attributes, so on every instance the
lookup raises `AttributeError` (pydantic v2 `__getattr__`). -/
def request_thinking_speed (_ : QueryRequest) : Except String String :=
  .error "AttributeError: thinking_speed"

/-- `process_query` on the incoming request object: read
`request.thinking_speed` (which raises, see `request_thinking_speed`; the
access at line 391 precedes the `try` block), default a falsy value to
`"normal"`, and run the workflow on `request.question`. No other request
field is ever read — in particular `divisions_filter` is not. -/
def process_query (r : QueryRequest) (o : Oracle) : Except String QueryResponseM :=
  match request_thinking_speed r with
  | .error e => .error e
  | .ok ts => query_response r.question (if ts = "" then "normal" else ts) o

/-! ### Service caches across re-ingestion — `RAGService.ingest_data`

`RAGService` holds two memoization caches: `llm_cache` (dict keyed by
`f"{thinking_speed}_{task}"`, filled by `get_llm_for_task`) and the
`functools.lru_cache` on `get_store` (keyed by label; the returned `Chroma`
object is bound to the embedder and on-disk content current when it was
first built). The successful `clear_existing=True` path of `ingest_data`
removes the whole ChromaDB directory, rebuilds every store with the new
embedding model via the ingestion subprocess, replaces `self.embedder`, and
calls `self.get_store.cache_clear()` — but never touches `self.llm_cache`,
although its own log line claims "Cleared LLM and store caches". -/

/-- A vector store handle as served by `get_store`: bound to the embedding
scheme of the content it was opened on. -/
structure StoreV where
  label : String
  scheme : String
deriving DecidableEq, Repr

/-- The cache-relevant state of a `RAGService` instance. `diskScheme` is the
embedding scheme of the on-disk stores (uniform after an ingestion run). -/
structure ServiceState where
  embedder : String
  llmCacheKeys : List String
  storeCache : List (String × StoreV)
  diskScheme : String
deriving DecidableEq, Repr

/-- `get_store` (lines 220-236): `lru_cache` lookup by label, else open the
on-disk store with the current content and memoize it. -/
def get_store (st : ServiceState) (label : String) : StoreV × ServiceState :=
  match st.storeCache.lookup label with
  | some s => (s, st)
  | none =>
    let s : StoreV := ⟨label, st.diskScheme⟩
    (s, { st with storeCache := st.storeCache ++ [(label, s)] })

/-- `get_llm_for_task` (lines 208-218): memoize `create_llm_for_speed` per
`f"{thinking_speed}_{task}"` key. -/
def get_llm_for_task (st : ServiceState) (speed task : String) : ServiceState :=
  let key := speed ++ "_" ++ task
  if st.llmCacheKeys.contains key then st
  else { st with llmCacheKeys := st.llmCacheKeys ++ [key] }

/-- The successful `clear_existing=True` path of `ingest_data` (lines
460-527): wipe and rebuild the on-disk stores with the new embedding model,
replace the embedder, clear the `get_store` cache. `llm_cache` is left
untouched — the code contains no `llm_cache.clear()`. -/
def ingest_data (st : ServiceState) (embeddingModel : String) : ServiceState :=
  { st with
    diskScheme := embeddingModel
    embedder := embeddingModel
    storeCache := [] }

/-! ### The document segmenter — `src/ingest.py`

`process_file` extracts the plain text, then collects every
`division_pattern` match. We embed the code from that point on,
parameterized by the match list: each match contributes its start offset,
its division letter (group 1) and its captured title text (group 2 or 3).
`re.finditer` returns non-overlapping matches in increasing position order,
so in every run of the real code the starts are strictly increasing — the
theorems take distinctness of starts as a hypothesis rather than re-proving
the regex engine. -/

/-- One `division_pattern` match. -/
structure DivMatch where
  start : Nat
  letter : Char
  raw : String
deriving DecidableEq, Repr

/-- Python dict assignment `d[k] = v`: update in place if the key exists
(keeping its position), else append. -/
def dictInsert {κ α : Type} [BEq κ] (d : List (κ × α)) (k : κ) (v : α) : List (κ × α) :=
  if d.any (fun p => p.1 == k) then
    d.map (fun p => if p.1 == k then (k, v) else p)
  else d ++ [(k, v)]

/-- A Python dict built by assigning the entries in order. -/
def dictOfEntries {κ α : Type} [BEq κ] (es : List (κ × α)) : List (κ × α) :=
  es.foldl (fun d e => dictInsert d e.1 e.2) []

/-- The `division_names` table (ingest.py lines 51-55): letter (uppercased)
to whitespace-normalized title, later matches overwriting earlier ones. -/
def division_names (ms : List DivMatch) : List (Char × String) :=
  ms.foldl (fun d m => dictInsert d m.letter.toUpper (normWS m.raw)) []

/-- Lexicographic comparison on `(start, letter)` pairs, as Python's
`sorted` orders the `(m.start(), m.group(1).upper())` tuples. -/
def headerLe (a b : Nat × Char) : Bool :=
  decide (a.1 < b.1) || (a.1 == b.1 && decide (a.2 ≤ b.2))

/-- Insertion step of the `sorted(...)` model. -/
def insertHeader (w : Nat × Char) : List (Nat × Char) → List (Nat × Char)
  | [] => [w]
  | v :: vs => if headerLe w v then w :: v :: vs else v :: insertHeader w vs

/-- `sorted((m.start(), m.group(1).upper()) for m in matches)` (line 59). -/
def sortHeaders : List (Nat × Char) → List (Nat × Char)
  | [] => []
  | w :: ws => insertHeader w (sortHeaders ws)

/-- Python code-point slice `cs[start:stop]`. -/
def pySlice (cs : List Char) (start stop : Nat) : List Char :=
  (cs.drop start).take (stop - start)

/-- The label `f"{basename} - Division {div} - {title}"` (line 66). -/
def chunk_label (fileName : String) (div : Char) (title : String) : String :=
  fileName ++ " - Division " ++ div.toString ++ " - " ++ title

/-- The chunk entries produced by the loop of lines 61-67, in header order:
half-open slice up to the next header's start (or end of text), stripped,
labelled through the `division_names` table. -/
def chunkEntries (fileName : String) (text : List Char)
    (headers : List (Nat × Char)) (names : List (Char × String)) :
    List (String × String) :=
  headers.enum.map (fun p =>
    let stop : Nat :=
      match headers[p.1 + 1]? with
      | some h => h.1
      | none => text.length
    (chunk_label fileName p.2.2 ((names.lookup p.2.2).getD ""),
     (pyStrip (pySlice text p.2.1 stop)).asString))

/-- `process_file` from the match list on (ingest.py lines 44-68): empty
mapping when there are no matches, else the chunks dict. -/
def process_file (fileName : String) (cleanText : String) (ms : List DivMatch) :
    List (String × String) :=
  if ms.isEmpty then []
  else
    dictOfEntries
      (chunkEntries fileName cleanText.toList
        (sortHeaders (ms.map (fun m => (m.start, m.letter.toUpper))))
        (division_names ms))

/-- The chunk-collection loop of `ingest_all` (lines 82-86): each file's
divisions merged into one dict with `all_chunks.update(divisions)`. A file
is a `(basename, clean text, matches)` triple. -/
def collect_all_chunks (files : List (String × String × List DivMatch)) :
    List (String × String) :=
  files.foldl
    (fun acc f => (process_file f.1 f.2.1 f.2.2).foldl (fun d e => dictInsert d e.1 e.2) acc)
    []

/-! ### The segmentation algorithm as the specification words it

For the refinement claim about `process_file` we also state the algorithm
the way the spec describes it: sort the matches by position, give each
division the half-open span from its heading's start to the next heading's
start (or the end of the document), and key it by
`source file - Division letter - division title` (title whitespace-
normalized, entries combined into a mapping in order). `segment_claimed`
uses the raw span, exactly as claimed; `segment_spec_trimmed` is the same
with the span whitespace-trimmed, which is what the code actually stores. -/

/-- Ordering of matches by position. -/
def insertMatch (w : DivMatch) : List DivMatch → List DivMatch
  | [] => [w]
  | v :: vs => if w.start ≤ v.start then w :: v :: vs else v :: insertMatch w vs

/-- Sort matches by position. -/
def sortMatches : List DivMatch → List DivMatch
  | [] => []
  | w :: ws => insertMatch w (sortMatches ws)

/-- End of the `i`-th sorted division's span: the next heading's start, or
the end of the document. -/
def spanStop (sorted : List DivMatch) (i n : Nat) : Nat :=
  match sorted[i + 1]? with
  | some m => m.start
  | none => n

/-- The mapping the claim describes: each division's raw half-open span. -/
def segment_claimed (fileName : String) (cleanText : String) (ms : List DivMatch) :
    List (String × String) :=
  let sorted := sortMatches ms
  dictOfEntries (sorted.enum.map (fun p =>
    (chunk_label fileName p.2.letter.toUpper (normWS p.2.raw),
     (pySlice cleanText.toList p.2.start
        (spanStop sorted p.1 cleanText.toList.length)).asString)))

/-- The same mapping with each span whitespace-trimmed. -/
def segment_spec_trimmed (fileName : String) (cleanText : String) (ms : List DivMatch) :
    List (String × String) :=
  let sorted := sortMatches ms
  dictOfEntries (sorted.enum.map (fun p =>
    (chunk_label fileName p.2.letter.toUpper (normWS p.2.raw),
     (pyStrip (pySlice cleanText.toList p.2.start
        (spanStop sorted p.1 cleanText.toList.length))).asString)))

/-! ### Concrete runs used as witnesses and counterexamples -/

/-- An oracle whose router selects two divisions and whose summarizer
raises on the second one. -/
def oracleFailDHS : Oracle where
  routeReply := fun _ _ =>
    "[\"DEPARTMENT OF DEFENSE\", \"DEPARTMENT OF HOMELAND SECURITY\"]"
  summarize := fun _ _ d =>
    if d = "DEPARTMENT OF DEFENSE" then .ok "DOD answer" else .error "boom"

/-- An oracle whose router selects zero divisions. -/
def oracleEmptyRoute : Oracle where
  routeReply := fun _ _ => "[]"
  summarize := fun _ _ _ => .ok "unused"

/-- An oracle whose router names one real division and one label outside
the closed vocabulary. -/
def oracleBogusRoute : Oracle where
  routeReply := fun _ _ =>
    "[\"DEPARTMENT OF DEFENSE\", \"NOT A REAL DIVISION\"]"
  summarize := fun _ _ _ => .ok "unused"

/-- An oracle whose two selected divisions both succeed. -/
def oracleTwoOk : Oracle where
  routeReply := fun _ _ =>
    "[\"DEPARTMENT OF DEFENSE\", \"DEPARTMENT OF HOMELAND SECURITY\"]"
  summarize := fun _ _ d =>
    if d = "DEPARTMENT OF DEFENSE" then .ok "DOD answer"
    else if d = "DEPARTMENT OF HOMELAND SECURITY" then .ok "DHS answer"
    else .error "no store"

/-- Like `oracleTwoOk`, but the router lists the two divisions against
their node-registration order (Homeland Security before Defense, while
`subcommittee_stores` registers Defense first). -/
def oracleTwoOkRev : Oracle where
  routeReply := fun _ _ =>
    "[\"DEPARTMENT OF HOMELAND SECURITY\", \"DEPARTMENT OF DEFENSE\"]"
  summarize := fun _ _ d =>
    if d = "DEPARTMENT OF DEFENSE" then .ok "DOD answer"
    else if d = "DEPARTMENT OF HOMELAND SECURITY" then .ok "DHS answer"
    else .error "no store"

/-- A service state after one `normal`-speed query: `llm_cache` holds the
generation model, one store is memoized, everything embedded with the
initial scheme. -/
def serviceAfterQuery : ServiceState where
  embedder := "text-embedding-3-large"
  llmCacheKeys := ["normal_generation"]
  storeCache :=
    [("Further_Consolidated_Appropriations_Act_2024_Public_Law_html_Division_A_DEPARTMENT_OF_DEFENSE",
      ⟨"Further_Consolidated_Appropriations_Act_2024_Public_Law_html_Division_A_DEPARTMENT_OF_DEFENSE",
       "text-embedding-3-large"⟩)]
  diskScheme := "text-embedding-3-large"

/-- A one-division document for the segmenter: the greedy, DOTALL title
capture of `division_pattern` runs to the end of the text, so the single
match has start 0, letter `A`, and raw title `"DEFENSE\n"`. -/
def oneDivText : String := "DIVISION A -- DEFENSE\n"

/-- The match list `re.finditer(division_pattern, oneDivText)` produces. -/
def oneDivMatches : List DivMatch := [⟨0, 'A', "DEFENSE\n"⟩]

/-! ### Helper lemmas -/

theorem route_to_nodes_ne_nil {sel : List String} (h : sel ≠ []) :
    route_to_nodes sel = sel := by
  cases sel with
  | nil => exact absurd rfl h
  | cons a l => rfl

theorem isEmpty_false_of_ne_nil {α : Type} {l : List α} (h : l ≠ []) :
    l.isEmpty = false := by
  cases l with
  | nil => exact absurd rfl h
  | cons a l => rfl

theorem firstErrorMsg_isSome {o : Oracle} {q s : String} {sel : List String}
    {d msg : String} (hd : d ∈ sel) (herr : o.summarize q s d = .error msg) :
    ∃ e, firstErrorMsg o q s sel = some e := by
  induction sel with
  | nil => cases hd
  | cons a l ih =>
    rcases List.mem_cons.mp hd with rfl | hmem
    · exact ⟨msg, by simp [firstErrorMsg, herr]⟩
    · cases hsum : o.summarize q s a with
      | error e => exact ⟨e, by simp [firstErrorMsg, hsum]⟩
      | ok v =>
        obtain ⟨e, he⟩ := ih hmem
        exact ⟨e, by simp [firstErrorMsg, hsum, he]⟩

theorem invoke_workflow_error_of_task_error (q s : String) (o : Oracle)
    (sel : List String) (hne : sel ≠ [])
    (hvocab : ∀ d ∈ sel, d ∈ vocabLabels)
    {e : String} (he : firstErrorMsg o q s (fanout_tasks sel) = some e) :
    invoke_workflow q s sel o = .error e := by
  have hany : (sel.any fun d => !(vocabLabels.contains d)) = false := by
    rw [Bool.eq_false_iff]
    intro hcontra
    rw [List.any_eq_true] at hcontra
    obtain ⟨d, hd, hneg⟩ := hcontra
    simp [hvocab d hd] at hneg
  unfold invoke_workflow invoke_workflow_writes
  rw [route_to_nodes_ne_nil hne]
  simp [isEmpty_false_of_ne_nil hne, hany, he]
  intro x hx hnx
  exact absurd (hvocab x hx) hnx

/-! ### Claim theorems -/

/-- C7: for every effort tier the speed policy resolves the routing task to
the same fastest/cheapest model (gpt-4o-mini with temperature 0), and the
retrieval depth K is exactly 6 for the low ("quick") tier, 9 for the medium
("normal") tier, and 15 for the high ("long") tier. -/
theorem C7_speed_policy :
    (∀ speed : String,
      create_llm_for_speed speed "routing" = ⟨"gpt-4o-mini", some 0, none, none⟩) ∧
    get_retrieval_k_for_speed "quick" = 6 ∧
    get_retrieval_k_for_speed "normal" = 9 ∧
    get_retrieval_k_for_speed "long" = 15 :=
  ⟨fun _ => rfl, rfl, rfl, rfl⟩

/-- C3: the routing parser strips a fenced-code block if present and parses
the remainder as a Python literal; the canonical two-division reply (bare or
fenced) parses to exactly that two-element list, the malformed reply
`not a list` yields the empty selection, and every parse failure yields the
empty selection (the parser is a total function — it cannot raise). -/
theorem C3_route_parsing :
    routeParsed "[\"DEPARTMENT OF DEFENSE\", \"DEPARTMENT OF HOMELAND SECURITY\"]"
      = PyVal.plist [PyVal.pstr "DEPARTMENT OF DEFENSE",
                     PyVal.pstr "DEPARTMENT OF HOMELAND SECURITY"] ∧
    routeParsed "```python\n[\"DEPARTMENT OF DEFENSE\", \"DEPARTMENT OF HOMELAND SECURITY\"]\n```"
      = PyVal.plist [PyVal.pstr "DEPARTMENT OF DEFENSE",
                     PyVal.pstr "DEPARTMENT OF HOMELAND SECURITY"] ∧
    routeParsed "not a list" = PyVal.plist [] ∧
    (∀ reply : String,
      pyLiteralEval (stripFencedChars (pyStrip reply.toList)) = none →
      routeParsed reply = PyVal.plist []) := by
  refine ⟨rfl, rfl, rfl, fun reply h => ?_⟩
  simp only [routeParsed, h]

/-- C3 witness: the last conjunct applied at a concrete malformed reply. -/
theorem C3_route_parsing_witness :
    routeParsed "totally(malformed" = PyVal.plist [] :=
  C3_route_parsing.2.2.2 "totally(malformed" rfl

/-- C1 counterexample: with two selected divisions and the second division's
summarizer raising, the whole run aborts — `process_query` re-raises instead
of completing with a failure marker, contrary to the claim. -/
theorem C1_counterexample :
    asStringList (routeParsed
        (oracleFailDHS.routeReply "How much funding did FEMA receive?" "normal"))
      = some ["DEPARTMENT OF DEFENSE", "DEPARTMENT OF HOMELAND SECURITY"] ∧
    oracleFailDHS.summarize "How much funding did FEMA receive?" "normal"
        "DEPARTMENT OF HOMELAND SECURITY" = .error "boom" ∧
    query_response "How much funding did FEMA receive?" "normal" oracleFailDHS
      = .error "RAG processing failed: boom" :=
  ⟨rfl, rfl, rfl⟩

/-- C1 (amended): a retrieval or generation failure raised inside one
division's summarizer task is not caught: whenever at least two divisions
are selected, all of them in the vocabulary, and any one division's
summarizer raises, the whole multi-division run aborts and `process_query`
re-raises the failure as `RAG processing failed: ...`; no other division's
answer is merged. -/
theorem C1_failure_aborts :
    ∀ (question speed : String) (o : Oracle) (sel : List String),
      asStringList (routeParsed (o.routeReply question speed)) = some sel →
      2 ≤ sel.length →
      (∀ d ∈ sel, d ∈ vocabLabels) →
      (∃ d ∈ sel, ∃ msg, o.summarize question speed d = .error msg) →
      ∃ e, query_response question speed o
        = .error ("RAG processing failed: " ++ e) := by
  intro q s o sel hroute hlen hvocab hfail
  obtain ⟨d, hd, msg, herr⟩ := hfail
  have hd2 : d ∈ fanout_tasks sel :=
    List.mem_filter.mpr ⟨hvocab d hd, by simpa using hd⟩
  obtain ⟨e, he⟩ := firstErrorMsg_isSome hd2 herr
  have hne : sel ≠ [] := by
    intro h
    rw [h] at hlen
    simp at hlen
  refine ⟨e, ?_⟩
  simp only [query_response, hroute]
  rw [invoke_workflow_error_of_task_error q s o sel hne hvocab he]

/-- C1 witness: the amended statement at a concrete failing run. -/
theorem C1_failure_aborts_witness :
    ∃ e, query_response "How much is defense spending?" "quick" oracleFailDHS
      = .error ("RAG processing failed: " ++ e) :=
  C1_failure_aborts "How much is defense spending?" "quick" oracleFailDHS
    ["DEPARTMENT OF DEFENSE", "DEPARTMENT OF HOMELAND SECURITY"]
    rfl (by decide) (by decide)
    ⟨"DEPARTMENT OF HOMELAND SECURITY", by decide, "boom", rfl⟩

/-- C2 counterexample: when routing selects zero divisions the run returns
the empty string as final answer — not a defined "no relevant divisions
found" message (the merge node, whose empty-input message is
`No answers found.`, is never reached). -/
theorem C2_counterexample :
    query_response "How much funding did FEMA receive?" "normal" oracleEmptyRoute
      = .ok ⟨"", []⟩ ∧
    merge_node [] = "No answers found." :=
  ⟨rfl, rfl⟩

/-- C2 (amended): for every question whose routing step selects zero
divisions, the workflow invocation started by `process_query` terminates
normally — it raises nothing — with `selected_divisions = []` and
`final_answer` equal to the empty string: the graph halts after routing, the
merge node never runs, and no "no relevant divisions found" message is
produced. -/
theorem C2_empty_routing :
    ∀ (question speed : String) (o : Oracle),
      routeParsed (o.routeReply question speed) = PyVal.plist [] →
      query_response question speed o = .ok ⟨"", []⟩ := by
  intro q s o h
  simp only [query_response, h]
  rfl

/-- C2 witness: the amended statement at a concrete empty-routing run. -/
theorem C2_empty_routing_witness :
    query_response "What was FEMA's Funding?" "quick" oracleEmptyRoute
      = .ok ⟨"", []⟩ :=
  C2_empty_routing "What was FEMA's Funding?" "quick" oracleEmptyRoute rfl

/-- C4 counterexample: a run whose router selects
`["DEPARTMENT OF HOMELAND SECURITY", "DEPARTMENT OF DEFENSE"]` — the
reverse of the graph's node-registration order — merges Defense's answer
first: the merged text follows the fixed node order, not
`selected_divisions` order, so A's answer does not come before B's. -/
theorem C4_counterexample :
    query_response "q" "normal" oracleTwoOkRev
      = .ok ⟨"DOD answer" ++ "\n\n" ++ "DHS answer",
             ["DEPARTMENT OF HOMELAND SECURITY", "DEPARTMENT OF DEFENSE"]⟩ ∧
    ("DOD answer" ++ "\n\n" ++ "DHS answer")
      ≠ ("DHS answer" ++ "\n\n" ++ "DOD answer") :=
  ⟨rfl, by decide⟩

/-- C4 (amended): for a run with two selected divisions whose summarizer
tasks complete in either order, the merged final answer concatenates the
division answers separated by a blank line in the graph's fixed
node-registration order (the `subcommittee_stores` order, in which `a`
here precedes `b`) — independent of both the completion order and the
order of `selected_divisions`. -/
theorem C4_merge_order :
    ∀ (a b x y question speed : String) (o : Oracle)
      (sel : List String) (arrival : List (Nat × String)),
      (sel = [a, b] ∨ sel = [b, a]) →
      fanout_tasks sel = [a, b] →
      o.summarize question speed a = .ok x →
      o.summarize question speed b = .ok y →
      (arrival = [(0, x), (1, y)] ∨ arrival = [(1, y), (0, x)]) →
      invoke_workflow_writes question speed sel o arrival
        = .ok ⟨x ++ "\n\n" ++ y, sel, [x, y]⟩ := by
  intro a b x y q s o sel arrival hsel hfan hsa hsb harr
  have hsort : applyWrites arrival = [x, y] := by
    rcases harr with rfl | rfl
    · simp [applyWrites, sortWrites, insertWrite]
    · simp [applyWrites, sortWrites, insertWrite]
  have hamem : a ∈ vocabLabels := by
    have ha : a ∈ fanout_tasks sel := by
      rw [hfan]
      exact List.mem_cons_self a [b]
    exact (List.mem_filter.mp ha).1
  have hbmem : b ∈ vocabLabels := by
    have hb : b ∈ fanout_tasks sel := by
      rw [hfan]
      exact List.mem_cons_of_mem a (List.mem_cons_self b [])
    exact (List.mem_filter.mp hb).1
  have hvocab : ∀ d ∈ sel, d ∈ vocabLabels := by
    intro d hd
    rcases hsel with rfl | rfl
    · rcases List.mem_cons.mp hd with rfl | hd2
      · exact hamem
      · rcases List.mem_cons.mp hd2 with rfl | hd3
        · exact hbmem
        · cases hd3
    · rcases List.mem_cons.mp hd with rfl | hd2
      · exact hbmem
      · rcases List.mem_cons.mp hd2 with rfl | hd3
        · exact hamem
        · cases hd3
  have hne : sel ≠ [] := by
    rcases hsel with rfl | rfl <;> simp
  have hany : (sel.any fun d => !(vocabLabels.contains d)) = false := by
    rw [Bool.eq_false_iff]
    intro hc
    rw [List.any_eq_true] at hc
    obtain ⟨d, hd, hneg⟩ := hc
    simp [hvocab d hd] at hneg
  have hfe : firstErrorMsg o q s (fanout_tasks sel) = none := by
    rw [hfan]
    simp [firstErrorMsg, hsa, hsb]
  unfold invoke_workflow_writes
  rw [route_to_nodes_ne_nil hne]
  simp [isEmpty_false_of_ne_nil hne, hany, hfe, hsort, merge_node, pyJoin]
  exact hvocab

/-- C4 witness: the amended statement at the selection listed against
registration order, with completion order DHS-then-DOD: DOD's answer is
still merged first. -/
theorem C4_merge_order_witness :
    invoke_workflow_writes "How much is defense spending?" "normal"
      ["DEPARTMENT OF HOMELAND SECURITY", "DEPARTMENT OF DEFENSE"] oracleTwoOkRev
      [(1, "DHS answer"), (0, "DOD answer")]
      = .ok ⟨"DOD answer" ++ "\n\n" ++ "DHS answer",
             ["DEPARTMENT OF HOMELAND SECURITY", "DEPARTMENT OF DEFENSE"],
             ["DOD answer", "DHS answer"]⟩ :=
  C4_merge_order "DEPARTMENT OF DEFENSE" "DEPARTMENT OF HOMELAND SECURITY"
    "DOD answer" "DHS answer" "How much is defense spending?" "normal"
    oracleTwoOkRev _ _ (Or.inr rfl) (by decide) rfl rfl (Or.inr rfl)

/-- C5 counterexample: a routing reply naming one real division and one
label outside the closed vocabulary is passed through unfiltered — the
unknown label is kept, and the run fails with an unknown-node error instead
of proceeding with the valid remainder. -/
theorem C5_counterexample :
    asStringList (routeParsed (oracleBogusRoute.routeReply "q" "normal"))
      = some ["DEPARTMENT OF DEFENSE", "NOT A REAL DIVISION"] ∧
    "NOT A REAL DIVISION" ∉ vocabLabels ∧
    query_response "q" "normal" oracleBogusRoute
      = .error "RAG processing failed: unknown node" :=
  ⟨rfl, by decide, rfl⟩

/-- C5 (amended): the routing result is used for fan-out without any
vocabulary validation; whenever the selection contains a label outside the
closed vocabulary, the workflow invocation fails with an unknown-node error
rather than dropping the label and keeping the valid remainder. -/
theorem C5_unknown_label_fails :
    ∀ (question speed : String) (o : Oracle) (sel : List String) (d : String),
      d ∈ sel →
      d ∉ vocabLabels →
      invoke_workflow question speed sel o = .error "unknown node" := by
  intro q s o sel d hd hnot
  have hne : sel ≠ [] := by
    intro h
    rw [h] at hd
    cases hd
  have hany : (sel.any fun x => !(vocabLabels.contains x)) = true := by
    rw [List.any_eq_true]
    exact ⟨d, hd, by simp [hnot]⟩
  unfold invoke_workflow invoke_workflow_writes
  rw [route_to_nodes_ne_nil hne]
  simp [isEmpty_false_of_ne_nil hne, hany]
  intro hall
  exact absurd (hall d hd) hnot

/-- C5 witness: the amended statement at a concrete selection. -/
theorem C5_unknown_label_fails_witness :
    invoke_workflow "q" "normal"
      ["DEPARTMENT OF DEFENSE", "NOT A REAL DIVISION"] oracleBogusRoute
      = .error "unknown node" :=
  C5_unknown_label_fails "q" "normal" oracleBogusRoute
    ["DEPARTMENT OF DEFENSE", "NOT A REAL DIVISION"] "NOT A REAL DIVISION"
    (by decide) (by decide)

/-- C6: evaluating the successful re-ingestion path on a service state that
has a memoized store and a memoized resolved model: the store cache is fully
cleared and `get_store` serves the freshly embedded content, but
`llm_cache` still holds its entry — the resolved-model cache is not
invalidated, although the code's own log line claims both caches were
cleared. -/
theorem C6_ingest_cache_behaviour :
    (ingest_data serviceAfterQuery "text-embedding-3-small").storeCache = [] ∧
    (get_store (ingest_data serviceAfterQuery "text-embedding-3-small")
        "Further_Consolidated_Appropriations_Act_2024_Public_Law_html_Division_A_DEPARTMENT_OF_DEFENSE").1
      = ⟨"Further_Consolidated_Appropriations_Act_2024_Public_Law_html_Division_A_DEPARTMENT_OF_DEFENSE",
         "text-embedding-3-small"⟩ ∧
    (ingest_data serviceAfterQuery "text-embedding-3-small").llmCacheKeys
      = ["normal_generation"] :=
  ⟨rfl, rfl, rfl⟩

/-- C9: a document whose heading pattern matches zero times yields the empty
mapping, and such a file contributes nothing to — and does not abort — the
ingestion batch (every function involved is total: no exception exists). -/
theorem C9_zero_matches :
    (∀ (fileName cleanText : String), process_file fileName cleanText [] = []) ∧
    (∀ (pre post : List (String × String × List DivMatch)) (name text : String),
      collect_all_chunks (pre ++ (name, text, []) :: post)
        = collect_all_chunks (pre ++ post)) := by
  refine ⟨fun _ _ => rfl, fun pre post name text => ?_⟩
  simp only [collect_all_chunks, List.foldl_append, List.foldl_cons]
  rfl

/-- C10: `process_query` reads no request field other than `question` (and
the absent `thinking_speed` attribute), so two requests identical except for
`divisions_filter` behave identically; and the request boundary accepts a
`divisions_filter` exactly when all its labels are in the closed
vocabulary. -/
theorem C10_filter_noninterference :
    (∀ (r₁ r₂ : QueryRequest) (o : Oracle),
      r₁.question = r₂.question →
      r₁.maxResults = r₂.maxResults →
      r₁.includeSources = r₂.includeSources →
      r₁.debugChunks = r₂.debugChunks →
      process_query r₁ o = process_query r₂ o) ∧
    (∀ ds : List String,
      (∃ v, validate_divisions (some ds) = .ok v)
        ↔ ∀ d ∈ ds, d ∈ validDivisions) := by
  constructor
  · intro r₁ r₂ o _ _ _ _
    rfl
  · intro ds
    constructor
    · intro ⟨v, hv⟩ d hd
      by_contra hnot
      have hmem : d ∈ ds.filter (fun x => !(validDivisions.contains x)) := by
        rw [List.mem_filter]
        exact ⟨hd, by simp [hnot]⟩
      have hne : (ds.filter (fun x => !(validDivisions.contains x))).isEmpty = false :=
        isEmpty_false_of_ne_nil (by intro h; rw [h] at hmem; cases hmem)
      simp only [validate_divisions, hne] at hv
      cases hv
    · intro h
      have hnil : ds.filter (fun x => !(validDivisions.contains x)) = [] := by
        rw [List.filter_eq_nil_iff]
        intro d hd
        simp [h d hd]
      refine ⟨some ds, ?_⟩
      simp [validate_divisions, hnil]
      exact h

/-! ### Lemmas for the segmenter claim -/

theorem mem_insertMatch {m b : DivMatch} {l : List DivMatch}
    (hmem : b ∈ insertMatch m l) : b = m ∨ b ∈ l := by
  induction l with
  | nil =>
    simp only [insertMatch] at hmem
    exact Or.inl (List.mem_singleton.mp hmem)
  | cons v vs ih =>
    simp only [insertMatch] at hmem
    by_cases hle : m.start ≤ v.start
    · rw [if_pos hle] at hmem
      rcases List.mem_cons.mp hmem with rfl | h2
      · exact Or.inl rfl
      · exact Or.inr h2
    · rw [if_neg hle] at hmem
      rcases List.mem_cons.mp hmem with rfl | h2
      · exact Or.inr (List.mem_cons_self _ _)
      · rcases ih h2 with h3 | h3
        · exact Or.inl h3
        · exact Or.inr (List.mem_cons_of_mem _ h3)

theorem mem_sortMatches {b : DivMatch} {l : List DivMatch}
    (h : b ∈ sortMatches l) : b ∈ l := by
  induction l with
  | nil => simp [sortMatches] at h
  | cons v vs ih =>
    simp only [sortMatches] at h
    rcases mem_insertMatch h with rfl | h2
    · exact List.mem_cons_self _ _
    · exact List.mem_cons_of_mem _ (ih h2)

theorem insertHeader_map (m : DivMatch) (l : List DivMatch)
    (h : ∀ b ∈ l, m.start ≠ b.start) :
    insertHeader (m.start, m.letter.toUpper)
        (l.map (fun x => (x.start, x.letter.toUpper)))
      = (insertMatch m l).map (fun x => (x.start, x.letter.toUpper)) := by
  induction l with
  | nil => rfl
  | cons v vs ih =>
    have hne : m.start ≠ v.start := h v (List.mem_cons_self v vs)
    have hcond : headerLe (m.start, m.letter.toUpper) (v.start, v.letter.toUpper)
        = decide (m.start ≤ v.start) := by
      simp only [headerLe]
      rcases Nat.lt_or_ge m.start v.start with hlt | hge
      · simp [hlt, Nat.le_of_lt hlt]
      · have hngt : ¬ m.start < v.start := Nat.not_lt.mpr hge
        have hnle : ¬ m.start ≤ v.start := fun hle => hne (Nat.le_antisymm hle hge)
        simp [hngt, hnle, hne]
    simp only [List.map_cons, insertHeader, insertMatch, hcond]
    by_cases hle : m.start ≤ v.start
    · simp [hle]
    · simp only [hle, decide_False, Bool.false_eq_true, if_false, if_neg hle,
        List.map_cons, List.cons.injEq, true_and]
      exact ih (fun b hb => h b (List.mem_cons_of_mem v hb))

theorem sortHeaders_map (ms : List DivMatch)
    (h : List.Pairwise (fun a b => a.start ≠ b.start) ms) :
    sortHeaders (ms.map (fun x => (x.start, x.letter.toUpper)))
      = (sortMatches ms).map (fun x => (x.start, x.letter.toUpper)) := by
  induction ms with
  | nil => rfl
  | cons m l ih =>
    rw [List.pairwise_cons] at h
    simp only [List.map_cons, sortHeaders, sortMatches]
    rw [ih h.2]
    exact insertHeader_map m (sortMatches l)
      (fun b hb => h.1 b (mem_sortMatches hb))

theorem dictInsert_of_not_mem {κ α : Type} [BEq κ] {d : List (κ × α)} {k : κ}
    (v : α) (h : ∀ p ∈ d, (p.1 == k) = false) :
    dictInsert d k v = d ++ [(k, v)] := by
  have hany : (d.any fun p => p.1 == k) = false := by
    rw [Bool.eq_false_iff]
    intro hc
    rw [List.any_eq_true] at hc
    obtain ⟨p, hp, he⟩ := hc
    rw [h p hp] at he
    cases he
  simp [dictInsert, hany]

theorem foldl_dictInsert_eq (ms : List DivMatch) (d : List (Char × String))
    (hd : ∀ m ∈ ms, ∀ p ∈ d, (p.1 == m.letter.toUpper) = false)
    (h : (ms.map (fun m => m.letter.toUpper)).Nodup) :
    ms.foldl (fun acc m => dictInsert acc m.letter.toUpper (normWS m.raw)) d
      = d ++ ms.map (fun m => (m.letter.toUpper, normWS m.raw)) := by
  induction ms generalizing d with
  | nil => simp
  | cons m l ih =>
    rw [List.map_cons, List.nodup_cons] at h
    rw [List.foldl_cons,
      dictInsert_of_not_mem _ (fun p hp => hd m (List.mem_cons_self m l) p hp)]
    rw [ih (d ++ [(m.letter.toUpper, normWS m.raw)]) ?_ h.2]
    · simp
    · intro m2 hm2 p hp
      rcases List.mem_append.mp hp with hp1 | hp2
      · exact hd m2 (List.mem_cons_of_mem _ hm2) p hp1
      · rw [List.mem_singleton.mp hp2]
        show (m.letter.toUpper == m2.letter.toUpper) = false
        apply beq_eq_false_iff_ne.mpr
        intro he
        exact h.1 (by rw [he]; exact List.mem_map_of_mem _ hm2)

theorem division_names_eq (ms : List DivMatch)
    (h : (ms.map (fun m => m.letter.toUpper)).Nodup) :
    division_names ms = ms.map (fun m => (m.letter.toUpper, normWS m.raw)) := by
  have := foldl_dictInsert_eq ms [] (fun _ _ _ hp => absurd hp (List.not_mem_nil _)) h
  simpa [division_names] using this

theorem lookup_division_names {ms : List DivMatch}
    (h : (ms.map (fun m => m.letter.toUpper)).Nodup)
    {m : DivMatch} (hm : m ∈ ms) :
    (division_names ms).lookup m.letter.toUpper = some (normWS m.raw) := by
  rw [division_names_eq ms h]
  induction ms with
  | nil => cases hm
  | cons v vs ih =>
    rcases List.mem_cons.mp hm with rfl | hmem
    · simp [List.lookup]
    · rw [List.map_cons, List.nodup_cons] at h
      have hne : (m.letter.toUpper == v.letter.toUpper) = false := by
        apply beq_eq_false_iff_ne.mpr
        intro he
        exact h.1 (he ▸ List.mem_map_of_mem _ hmem)
      simp only [List.map_cons, List.lookup, hne]
      exact ih h.2 hmem

theorem chunkEntries_eq_spec (f : String) (text : List Char) (ms : List DivMatch)
    (hstart : List.Pairwise (fun a b => a.start ≠ b.start) ms)
    (hnodup : (ms.map (fun m => m.letter.toUpper)).Nodup) :
    chunkEntries f text
        (sortHeaders (ms.map (fun m => (m.start, m.letter.toUpper))))
        (division_names ms)
      = (sortMatches ms).enum.map (fun p =>
          (chunk_label f p.2.letter.toUpper (normWS p.2.raw),
           (pyStrip (pySlice text p.2.start
             (spanStop (sortMatches ms) p.1 text.length))).asString)) := by
  rw [sortHeaders_map ms hstart]
  apply List.ext_getElem?
  intro n
  simp only [chunkEntries, List.getElem?_map, List.getElem?_enum]
  cases hget : (sortMatches ms)[n]? with
  | none => simp [hget]
  | some m =>
    have hmem : m ∈ ms := mem_sortMatches (List.getElem?_mem hget)
    have hstop :
        (match Option.map (fun x : DivMatch => (x.start, x.letter.toUpper))
             (sortMatches ms)[n + 1]? with
          | some h => h.1
          | none => text.length)
        = spanStop (sortMatches ms) n text.length := by
      cases hget2 : (sortMatches ms)[n + 1]? with
      | none => simp [spanStop, hget2]
      | some m2 => simp [spanStop, hget2]
    simp only [hget, Option.map_some']
    rw [lookup_division_names hnodup hmem]
    simp [hstop]

/-- C8 counterexample: on a one-division document the code stores the
whitespace-trimmed span, not the raw half-open span the claim describes
(the raw span keeps its trailing newline). -/
theorem C8_counterexample :
    process_file "bill.html" oneDivText oneDivMatches
      = [("bill.html - Division A - DEFENSE", "DIVISION A -- DEFENSE")] ∧
    segment_claimed "bill.html" oneDivText oneDivMatches
      = [("bill.html - Division A - DEFENSE", "DIVISION A -- DEFENSE\n")] ∧
    process_file "bill.html" oneDivText oneDivMatches
      ≠ segment_claimed "bill.html" oneDivText oneDivMatches :=
  ⟨rfl, rfl, by decide⟩

/-- C8 (amended): for every document with at least one heading match (with
the distinct match starts `re.finditer` guarantees and distinct division
letters), the segmenter sorts the matches by position and maps the label
`source file - Division letter - division title` to the
whitespace-trimmed half-open span from the heading's start to the next
heading's start (or the end of the document for the last heading). -/
theorem C8_segmentation :
    ∀ (fileName cleanText : String) (ms : List DivMatch),
      ms ≠ [] →
      List.Pairwise (fun a b => a.start ≠ b.start) ms →
      (ms.map (fun m => m.letter.toUpper)).Nodup →
      process_file fileName cleanText ms
        = segment_spec_trimmed fileName cleanText ms := by
  intro f text ms hne hstart hnodup
  simp only [process_file, isEmpty_false_of_ne_nil hne, Bool.false_eq_true,
    if_false, segment_spec_trimmed]
  rw [chunkEntries_eq_spec f text.toList ms hstart hnodup]

/-- C8 witness: the amended statement at the concrete one-division input. -/
theorem C8_segmentation_witness :
    process_file "bill.html" oneDivText oneDivMatches
      = segment_spec_trimmed "bill.html" oneDivText oneDivMatches :=
  C8_segmentation "bill.html" oneDivText oneDivMatches (by decide) (by decide)
    (by decide)

/-- C10 witness: two concrete requests differing only in the filter. -/
theorem C10_filter_noninterference_witness :
    process_query
      ⟨"How much funding did FEMA receive?", some 8, some true, none, some false⟩
      oracleTwoOk
    = process_query
      ⟨"How much funding did FEMA receive?", some 8, some true,
        some ["DEPARTMENT OF DEFENSE"], some false⟩
      oracleTwoOk :=
  C10_filter_noninterference.1 _ _ oracleTwoOk rfl rfl rfl rfl

end LawSearch
